import Mathlib

/-!
# Tilt-maze game (PIC24): collision engine, tilt classifier, maze set-up

A shallow embedding of `I2C_Accel_HW.X/LabC7_Accel_HW.c`.

Conventions of the embedding

* C `int` values are mathematical integers (`Int`).  Signed overflow is
  undefined behaviour in C, so the program has a meaning only where no
  intermediate value overflows, and there the two agree.
* C `/` on `int` truncates toward zero: `Int.tdiv`.
* `Wall walls[40]` is a function `Fin 40 → Wall`.  A read `walls[i]` with
  `i ≥ 40` is outside the array; functions that perform such a read yield
  `none`.
* A `for (i = 0; i < n; i++)` loop runs its body for `i = 0, 1, ..` exactly
  `n.toNat` times unless the body returns; the loops below recurse on the
  number of iterations that remain.
* Objects the file uses but does not define (`direction1 .. len4`,
  `tiltDeltas`, `MAZE_WIDTH`, `MAZE_HEIGHT`) are parameters.
* Hardware input is a list of the values that the successive calls of
  `accel_Read` resp. `IsButtonPressed` deliver; a loop that waits for input
  yields `none` when the list ends before the loop is left.
-/

namespace MazeGame

/-! ## Constants -/

def TILT_THRESHOLD : Int := 2
def MAX_WALLS : Int := 20

/-! ## Data types -/

structure Wall where
  direction : Int
  x : Int
  y : Int
  length : Int
deriving DecidableEq, Repr

structure Maze where
  walls : Fin 40 → Wall
  x : Int
  y : Int
  num_walls : Int
  end_x : Int
  end_y : Int

structure Ball where
  x : Int
  y : Int
  radius : Int
deriving DecidableEq, Repr

inductive TiltDirection where
  | TILT_NONE
  | TILT_UP
  | TILT_DOWN
  | TILT_LEFT
  | TILT_RIGHT
deriving DecidableEq, Repr

open TiltDirection

/-- The read `maze->walls[i]`; `none` when `i` is outside the 40-element array. -/
def Maze.wallAt (maze : Maze) (i : Nat) : Option Wall :=
  if h : i < 40 then some (maze.walls ⟨i, h⟩) else none

/-- The function `abs` of the C library, on values whose negation does not overflow. -/
def c_abs (n : Int) : Int := if n < 0 then -n else n

/-! ## Maze functions -/

def CreateWall (direction x y length : Int) : Wall :=
  { direction := direction, x := x, y := y, length := length }

/-- The four parallel tables `direction_lists`, `x_lists`, `y_lists`,
`length_lists` of `InitializeMaze`: entry `k i` is element `i` of the array of
maze `k` (`direction1 .. direction4`, `x1 .. x4`, `y1 .. y4`, `len1 .. len4`).
The arrays themselves are not part of the file. -/
structure MazeCatalog where
  direction_lists : Nat → Nat → Int
  x_lists : Nat → Nat → Int
  y_lists : Nat → Nat → Int
  length_lists : Nat → Nat → Int

/-- How a call of `InitializeMaze` ends: it returns with `*maze` filled in, or
it is inside `StopWithError`, which never returns.  In the second case `maze`
is the content of `*maze` at the moment `StopWithError` was entered. -/
inductive InitResult where
  | returned (maze : Maze)
  | stopped (message : String) (maze : Maze)

/-- The content of `*maze` when the call has ended. -/
def InitResult.maze : InitResult → Maze
  | InitResult.returned maze => maze
  | InitResult.stopped _ maze => maze

/-- `StopWithError` draws the message and then spins in `while (1);` for ever:
the program stays in the state it is entered in. -/
def StopWithError (message : String) (maze : Maze) : InitResult :=
  InitResult.stopped message maze

/-- The assignment `maze->walls[i] = wall`.  `InitializeMaze` only performs it
for `i < MAX_WALLS = 20`, inside the 40-element array. -/
def Maze.setWall (maze : Maze) (i : Nat) (wall : Wall) : Maze :=
  { maze with walls := fun j => if j.val = i then wall else maze.walls j }

/-- The loop of `InitializeMaze` at index `i` with `k` iterations left. -/
def InitializeMaze.loop (directions x_values y_values lengths : Nat → Int) :
    Nat → Nat → Maze → Maze
  | 0, _, maze => maze
  | k + 1, i, maze =>
    let wall := CreateWall (directions i) (x_values i) (y_values i) (lengths i)
    InitializeMaze.loop directions x_values y_values lengths k (i + 1) (maze.setWall i wall)

def InitializeMaze (catalog : MazeCatalog) (maze : Maze) (maze_number : Int) : InitResult :=
  let end_position_0 : Int := 50
  let end_position_1 : Int := 64
  let maze_count : Int := 4
  if 0 ≤ maze_number ∧ maze_number < maze_count then
    let directions := catalog.direction_lists maze_number.toNat
    let x_values := catalog.x_lists maze_number.toNat
    let y_values := catalog.y_lists maze_number.toNat
    let lengths := catalog.length_lists maze_number.toNat
    let maze1 : Maze :=
      { maze with
        num_walls := MAX_WALLS
        x := 0
        y := 0
        end_x := end_position_0
        end_y := end_position_1 }
    InitResult.returned
      (InitializeMaze.loop directions x_values y_values lengths maze1.num_walls.toNat 0 maze1)
  else
    StopWithError "Invalid maze number" maze

/-! ## Ball functions -/

def CreateBall (x y radius : Int) : Ball :=
  { x := x, y := y, radius := radius }

namespace CheckWallCollision

def wallStartX (wall : Wall) : Int := wall.x
def wallEndX (wall : Wall) : Int := if wall.direction = 0 then wall.x + wall.length else wall.x
def wallStartY (wall : Wall) : Int := wall.y
def wallEndY (wall : Wall) : Int := if wall.direction = 0 then wall.y else wall.y + wall.length

def dx (ball : Ball) (wall : Wall) : Int := ball.x - (wallStartX wall + wallEndX wall).tdiv 2
def dy (ball : Ball) (wall : Wall) : Int := ball.y - (wallStartY wall + wallEndY wall).tdiv 2

def width (wall : Wall) : Int := if wall.direction = 0 then wall.length else 1
def height (wall : Wall) : Int := if wall.direction = 1 then wall.length else 1

def hx (wall : Wall) : Int := (width wall).tdiv 2
def hy (wall : Wall) : Int := (height wall).tdiv 2

def crossWidth (ball : Ball) (wall : Wall) : Int := hx wall * dy ball wall
def crossHeight (ball : Ball) (wall : Wall) : Int := hy wall * dx ball wall

end CheckWallCollision

open CheckWallCollision in
def CheckWallCollision (ball : Ball) (wall : Wall) : TiltDirection :=
  if c_abs (dx ball wall) ≤ hx wall ∧ c_abs (dy ball wall) ≤ hy wall then
    if crossWidth ball wall > crossHeight ball wall then
      if crossWidth ball wall > -crossHeight ball wall then
        (if wall.direction = 0 then TILT_DOWN else TILT_LEFT)
      else
        (if wall.direction = 0 then TILT_LEFT else TILT_UP)
    else
      if crossWidth ball wall > -crossHeight ball wall then
        (if wall.direction = 0 then TILT_RIGHT else TILT_DOWN)
      else
        (if wall.direction = 0 then TILT_UP else TILT_RIGHT)
  else
    TILT_NONE

/-- The loop of `CheckMazeCollision` at index `i` with `k` iterations left. -/
def CheckMazeCollision.loop (ball : Ball) (maze : Maze) : Nat → Nat → Option Int
  | 0, _ => some 0
  | k + 1, i =>
    match maze.wallAt i with
    | none => none
    | some wall =>
      if CheckWallCollision ball wall ≠ TILT_NONE then some 1
      else CheckMazeCollision.loop ball maze k (i + 1)

def CheckMazeCollision (ball : Ball) (maze : Maze) : Option Int :=
  CheckMazeCollision.loop ball maze maze.num_walls.toNat 0

/-- The loop of `IsWallBelow` at index `i` with `k` iterations left. -/
def IsWallBelow.loop (ball : Ball) (maze : Maze) : Nat → Nat → Option Int
  | 0, _ => some 0
  | k + 1, i =>
    match maze.wallAt i with
    | none => none
    | some wall =>
      if ball.y + ball.radius ≥ wall.y ∧ ball.y ≤ wall.y + wall.length then some 1
      else IsWallBelow.loop ball maze k (i + 1)

def IsWallBelow (ball : Ball) (maze : Maze) : Option Int :=
  IsWallBelow.loop ball maze maze.num_walls.toNat 0

/-! ## Tilt classifier -/

def DetectTilt (x y _z : Int) : TiltDirection :=
  if x < -TILT_THRESHOLD then TILT_LEFT
  else if x > TILT_THRESHOLD then TILT_RIGHT
  else if y < -TILT_THRESHOLD then TILT_UP
  else if y > TILT_THRESHOLD then TILT_DOWN
  else TILT_NONE

/-! ## The play-session loop of `main` -/

/-- An element of the table `tiltDeltas`, which `main` reads through `.x` and `.y`. -/
structure Delta where
  x : Int
  y : Int

/-- What the file leaves undefined in the play loop: the displacement table
indexed by tilt direction and the size of the maze rectangle. -/
structure PlayParams where
  tiltDeltas : TiltDirection → Delta
  MAZE_WIDTH : Int
  MAZE_HEIGHT : Int

/-- The four `if` statements that follow the move, in source order. -/
def clampBall (p : PlayParams) (maze : Maze) (ball : Ball) : Ball :=
  let ball1 : Ball := if ball.x < maze.x then { ball with x := maze.x } else ball
  let ball2 : Ball :=
    if ball1.x > maze.x + p.MAZE_WIDTH then { ball1 with x := maze.x + p.MAZE_WIDTH } else ball1
  let ball3 : Ball := if ball2.y < maze.y then { ball2 with y := maze.y } else ball2
  let ball4 : Ball :=
    if ball3.y > maze.y + p.MAZE_HEIGHT then { ball3 with y := maze.y + p.MAZE_HEIGHT } else ball3
  ball4

/-- The two statements `ball.x += ..; ball.y += ..` followed by the clamp. -/
def moveAndClamp (p : PlayParams) (maze : Maze) (ball : Ball) (currentTilt : TiltDirection) :
    Ball :=
  clampBall p maze
    { ball with x := ball.x + (p.tiltDeltas currentTilt).x, y := ball.y + (p.tiltDeltas currentTilt).y }

/-- How one pass through the body of the inner `while (1)` ends: the loop goes
on, or it is left through `break` after "Game Over" has been drawn. -/
inductive TickOutcome where
  | Running
  | GameOver
deriving DecidableEq, Repr

/-- The variables of the inner loop that survive from one pass to the next. -/
structure PlayState where
  ball : Ball
  currentTilt : TiltDirection
deriving DecidableEq, Repr

/-- One pass through the body of the inner `while (1)` of `main`, for the
sample `(tiltX, tiltY, tiltZ)` delivered by `accel_Read`.  `none` when a wall
is read outside the array. -/
def tick (p : PlayParams) (maze : Maze) (s : PlayState) (tiltX tiltY tiltZ : Int) :
    Option (PlayState × TickOutcome) :=
  let previousTilt := s.currentTilt
  let currentTilt := DetectTilt tiltX tiltY tiltZ
  if currentTilt ≠ previousTilt then
    let ball := moveAndClamp p maze s.ball currentTilt
    match IsWallBelow ball maze with
    | none => none
    | some below =>
      if below ≠ 0 then some ({ ball := ball, currentTilt := currentTilt }, TickOutcome.GameOver)
      else
        match CheckMazeCollision ball maze with
        | none => none
        | some hit =>
          if hit ≠ 0 then
            some ({ ball := ball, currentTilt := currentTilt }, TickOutcome.GameOver)
          else some ({ ball := ball, currentTilt := currentTilt }, TickOutcome.Running)
  else
    some ({ ball := s.ball, currentTilt := currentTilt }, TickOutcome.Running)

/-- The inner `while (1)` of `main` run on the samples that `accel_Read`
delivers, one per pass: it stops at the first pass that ends in "Game Over";
when the samples are used up the loop is still running. -/
def playLoop (p : PlayParams) (maze : Maze) :
    PlayState → List (Int × Int × Int) → Option (PlayState × TickOutcome)
  | s, [] => some (s, TickOutcome.Running)
  | s, (tiltX, tiltY, tiltZ) :: rest =>
    match tick p maze s tiltX tiltY tiltZ with
    | none => none
    | some (s1, TickOutcome.GameOver) => some (s1, TickOutcome.GameOver)
    | some (s1, TickOutcome.Running) => playLoop p maze s1 rest

/-! ## Menu functions -/

def MENU_OPTIONS : Int := 4

/-- The polling loop of `DisplayMazePickMenu`, entered with the current values
of `option` and `buttonPressed`, on the values that the successive calls of
`IsButtonPressed` return.  The result is the returned `option` together with
the readings not yet consumed; `none` when the readings end while the loop is
still polling. -/
def DisplayMazePickMenu.loop (option buttonPressed : Int) : List Int → Option (Int × List Int)
  | [] => if buttonPressed ≠ 0 then some (option, []) else none
  | reading :: rest =>
    if buttonPressed ≠ 0 then some (option, reading :: rest)
    else
      DisplayMazePickMenu.loop
        (if reading ≠ 0 then option.tmod MENU_OPTIONS + 1 else option) reading rest

def DisplayMazePickMenu (readings : List Int) : Option (Int × List Int) :=
  DisplayMazePickMenu.loop 0 0 readings

/-- The polling loop of `DisplayLevelPickMenu`; see `DisplayMazePickMenu.loop`. -/
def DisplayLevelPickMenu.loop (option buttonPressed : Int) : List Int → Option (Int × List Int)
  | [] => if buttonPressed ≠ 0 then some (option, []) else none
  | reading :: rest =>
    if buttonPressed ≠ 0 then some (option, reading :: rest)
    else
      DisplayLevelPickMenu.loop
        (if reading ≠ 0 then option.tmod MENU_OPTIONS + 1 else option) reading rest

def DisplayLevelPickMenu (readings : List Int) : Option (Int × List Int) :=
  DisplayLevelPickMenu.loop 0 0 readings

/-- The head of the session loop of `main`: both menus, then
`InitializeMaze(&maze, selectedMaze)` on the local `maze`, whose content at that
point is whatever the stack holds.  `none` while a menu is still polling. -/
def sessionStart (catalog : MazeCatalog) (maze : Maze) (readings : List Int) :
    Option InitResult :=
  match DisplayMazePickMenu readings with
  | none => none
  | some (selectedMaze, rest) =>
    match DisplayLevelPickMenu rest with
    | none => none
    | some (_selectedLevel, _) => some (InitializeMaze catalog maze selectedMaze)

/-! ## Concrete scenarios -/

/-- The horizontal wall `{x: 0, y: 50, length: 20}` of the test scenarios. -/
def scenarioWall : Wall := { direction := 0, x := 0, y := 50, length := 20 }

/-- A maze whose only wall in use is `wall` (`num_walls = 1`). -/
def singleWallMaze (wall : Wall) : Maze :=
  { walls := fun _ => wall, x := 0, y := 0, num_walls := 1, end_x := 50, end_y := 64 }

/-- Ball of radius 3 at `(10, 50)`: on the scenario wall. -/
def ballOnWall : Ball := { x := 10, y := 50, radius := 3 }

/-- Ball of radius 3 at `(10, 20)`: thirty rows above the scenario wall. -/
def ballFarAway : Ball := { x := 10, y := 20, radius := 3 }

/-- Ball of radius 3 at `(10, 51)`: one row below the scenario wall. -/
def ballOneRowOff : Ball := { x := 10, y := 51, radius := 3 }

/-- A horizontal wall of odd length 3 that starts at `x = -5`: it occupies the
cells `x = -5, -4, -3` of row 0. -/
def negativeOriginWall : Wall := { direction := 0, x := -5, y := 0, length := 3 }

/-- Ball of radius 3 on the first cell `(-5, 0)` of `negativeOriginWall`. -/
def ballOnFirstCell : Ball := { x := -5, y := 0, radius := 3 }

/-- A vertical wall that occupies the rows `0 .. 9` of column 0. -/
def verticalWall : Wall := { direction := 1, x := 0, y := 0, length := 10 }

/-- Ball of radius 3 centred at row 12: its topmost row is 9, the last row of
`verticalWall`. -/
def ballTouchingFromBelow : Ball := { x := 0, y := 12, radius := 3 }

/-- Ball of radius 3 centred at row 8: its centre is on a row of `verticalWall`. -/
def ballBesideWall : Ball := { x := 30, y := 8, radius := 3 }

/-- A horizontal wall on row 66, columns `0 .. 39`: two rows below the goal row
64 and clear of the goal column 50. -/
def wallUnderGoal : Wall := { direction := 0, x := 0, y := 66, length := 40 }

/-- A horizontal wall on row 90, columns `0 .. 19`: far below the goal. -/
def wallFarFromGoal : Wall := { direction := 0, x := 0, y := 90, length := 20 }

/-- A catalog in which every entry of every maze is `wall`. -/
def catalogOf (wall : Wall) : MazeCatalog :=
  { direction_lists := fun _ _ => wall.direction
    x_lists := fun _ _ => wall.x
    y_lists := fun _ _ => wall.y
    length_lists := fun _ _ => wall.length }

/-- Maze 1 of the catalog whose walls all lie on row 66, as `InitializeMaze`
builds it: 20 walls, origin `(0, 0)`, goal `(50, 64)`. -/
def mazeWallUnderGoal : Maze :=
  (InitializeMaze (catalogOf wallUnderGoal) (singleWallMaze verticalWall) 1).maze

/-- Maze 1 of the catalog whose walls all lie on row 90, as `InitializeMaze`
builds it. -/
def mazeWallFarFromGoal : Maze :=
  (InitializeMaze (catalogOf wallFarFromGoal) (singleWallMaze verticalWall) 1).maze

/-- Sample values for what the play loop leaves undefined: a step of `JUMP = 2`
pixels per direction and a 96 by 96 maze rectangle. -/
def sampleParams : PlayParams :=
  { tiltDeltas := fun t =>
      match t with
      | TILT_NONE => { x := 0, y := 0 }
      | TILT_UP => { x := 0, y := -2 }
      | TILT_DOWN => { x := 0, y := 2 }
      | TILT_LEFT => { x := -2, y := 0 }
      | TILT_RIGHT => { x := 2, y := 0 }
    MAZE_WIDTH := 96
    MAZE_HEIGHT := 96 }

/-- Ball of radius 3 one step to the left of the goal `(50, 64)`, board level. -/
def stateLeftOfGoal : PlayState :=
  { ball := { x := 48, y := 64, radius := 3 }, currentTilt := TILT_NONE }

/-- Ball of radius 3 at the goal `(50, 64)`. -/
def ballAtGoal : Ball := { x := 50, y := 64, radius := 3 }

/-- Ball of radius 3 at `(120, -5)`: right of and above the 96 by 96 rectangle. -/
def ballOutsideRectangle : Ball := { x := 120, y := -5, radius := 3 }

/-- Ball at the goal while the board is already tilted to the right. -/
def stateTiltedRight : PlayState := { ball := ballAtGoal, currentTilt := TILT_RIGHT }

/-- Values returned by successive calls of `IsButtonPressed`: two idle polls, a
press, an idle poll, a press, an idle poll. -/
def buttonReadings : List Int := [0, 0, 1, 0, 1, 0]

/-! ## Auxiliary facts -/

theorem wallAt_eq_some_iff (maze : Maze) (i : Nat) (w : Wall) :
    maze.wallAt i = some w ↔ ∃ h : i < 40, maze.walls ⟨i, h⟩ = w := by
  unfold Maze.wallAt
  split <;> simp_all

theorem wallAt_lt (maze : Maze) (i : Nat) (w : Wall) (h : maze.wallAt i = some w) : i < 40 := by
  obtain ⟨h40, _⟩ := (wallAt_eq_some_iff maze i w).1 h
  exact h40

theorem wallAt_fin (maze : Maze) (i : Fin 40) : maze.wallAt i.val = some (maze.walls i) := by
  unfold Maze.wallAt
  simp

theorem wallAt_of_lt (maze : Maze) (i j : Nat) (w : Wall) (h : maze.wallAt j = some w)
    (hij : i ≤ j) : ∃ v, maze.wallAt i = some v := by
  have hj := wallAt_lt maze j w h
  have hi : i < 40 := by omega
  exact ⟨maze.walls ⟨i, hi⟩, by unfold Maze.wallAt; simp [hi]⟩

/-- The collision loop returns 1 exactly when some wall it is due to visit is hit. -/
theorem CheckMazeCollision_loop_one (ball : Ball) (maze : Maze) (k i : Nat) :
    CheckMazeCollision.loop ball maze k i = some 1 ↔
      ∃ j w, i ≤ j ∧ j < i + k ∧ maze.wallAt j = some w ∧
        CheckWallCollision ball w ≠ TILT_NONE := by
  induction k generalizing i with
  | zero =>
    simp [CheckMazeCollision.loop]
    intro j w h1 h2
    omega
  | succ k ih =>
    unfold CheckMazeCollision.loop
    cases hw : maze.wallAt i with
    | none =>
      constructor
      · intro h; cases h
      · rintro ⟨j, w, h1, _, h3, _⟩
        obtain ⟨v, hv⟩ := wallAt_of_lt maze i j w h3 h1
        rw [hw] at hv
        cases hv
    | some wall =>
      simp only
      by_cases hit : CheckWallCollision ball wall ≠ TILT_NONE
      · rw [if_pos hit]
        simp only [true_iff]
        exact ⟨i, wall, le_refl i, by omega, hw, hit⟩
      · rw [if_neg hit, ih (i + 1)]
        constructor
        · rintro ⟨j, w, h1, h2, h3, h4⟩
          exact ⟨j, w, by omega, by omega, h3, h4⟩
        · rintro ⟨j, w, h1, h2, h3, h4⟩
          have hne : j ≠ i := by
            rintro rfl
            rw [hw] at h3
            cases h3
            exact hit h4
          exact ⟨j, w, by omega, by omega, h3, h4⟩

/-- With every visited index inside the array, the collision loop returns 0
exactly when no wall it is due to visit is hit. -/
theorem CheckMazeCollision_loop_zero (ball : Ball) (maze : Maze) (k i : Nat) (hcap : i + k ≤ 40) :
    CheckMazeCollision.loop ball maze k i = some 0 ↔
      ¬ ∃ j w, i ≤ j ∧ j < i + k ∧ maze.wallAt j = some w ∧
        CheckWallCollision ball w ≠ TILT_NONE := by
  induction k generalizing i with
  | zero =>
    simp [CheckMazeCollision.loop]
    intro j w h1 h2
    omega
  | succ k ih =>
    unfold CheckMazeCollision.loop
    have hi : i < 40 := by omega
    have hw : maze.wallAt i = some (maze.walls ⟨i, hi⟩) := wallAt_fin maze ⟨i, hi⟩
    rw [hw]
    simp only
    by_cases hit : CheckWallCollision ball (maze.walls ⟨i, hi⟩) ≠ TILT_NONE
    · rw [if_pos hit]
      constructor
      · intro h; cases h
      · intro h
        exact absurd ⟨i, _, le_refl i, by omega, hw, hit⟩ h
    · rw [if_neg hit, ih (i + 1) (by omega)]
      apply not_congr
      constructor
      · rintro ⟨j, w, h1, h2, h3, h4⟩
        exact ⟨j, w, by omega, by omega, h3, h4⟩
      · rintro ⟨j, w, h1, h2, h3, h4⟩
        have hne : j ≠ i := by
          rintro rfl
          rw [hw] at h3
          cases h3
          exact hit h4
        exact ⟨j, w, by omega, by omega, h3, h4⟩

/-- The walls a loop over `num_walls` entries visits, as indices of the array. -/
theorem visited_iff (maze : Maze) (P : Wall → Prop) :
    (∃ j w, 0 ≤ j ∧ j < 0 + maze.num_walls.toNat ∧ maze.wallAt j = some w ∧ P w) ↔
      ∃ i : Fin 40, (i.val : Int) < maze.num_walls ∧ P (maze.walls i) := by
  constructor
  · rintro ⟨j, w, _, h2, h3, h4⟩
    obtain ⟨h40, hw⟩ := (wallAt_eq_some_iff maze j w).1 h3
    refine ⟨⟨j, h40⟩, ?_, ?_⟩
    · simp only
      omega
    · rw [hw]; exact h4
  · rintro ⟨i, h1, h2⟩
    exact ⟨i.val, maze.walls i, Nat.zero_le _, by omega, wallAt_fin maze i, h2⟩

theorem CheckMazeCollision_one_iff (ball : Ball) (maze : Maze) :
    CheckMazeCollision ball maze = some 1 ↔
      ∃ i : Fin 40, (i.val : Int) < maze.num_walls ∧
        CheckWallCollision ball (maze.walls i) ≠ TILT_NONE := by
  unfold CheckMazeCollision
  rw [CheckMazeCollision_loop_one]
  exact visited_iff maze (fun w => CheckWallCollision ball w ≠ TILT_NONE)

theorem CheckMazeCollision_zero_iff (ball : Ball) (maze : Maze) (hcap : maze.num_walls ≤ 40) :
    CheckMazeCollision ball maze = some 0 ↔
      ¬ ∃ i : Fin 40, (i.val : Int) < maze.num_walls ∧
        CheckWallCollision ball (maze.walls i) ≠ TILT_NONE := by
  unfold CheckMazeCollision
  rw [CheckMazeCollision_loop_zero ball maze _ 0 (by omega)]
  exact not_congr (visited_iff maze (fun w => CheckWallCollision ball w ≠ TILT_NONE))

/-! ## C1 -/

/-- C1: for a maze whose `num_walls` does not exceed the 40 entries of its
array, `CheckMazeCollision` returns 1 if and only if some index `i` with
`0 ≤ i < num_walls` has `CheckWallCollision(ball, walls[i]) ≠ TILT_NONE`, and
returns 0 if and only if there is none.  The condition ranges over every
index below `num_walls`; no coordinate of a wall enters it. -/
theorem C1_CheckMazeCollision_iff_some_wall_hit (ball : Ball) (maze : Maze)
    (hcap : maze.num_walls ≤ 40) :
    (CheckMazeCollision ball maze = some 1 ↔
      ∃ i : Fin 40, (i.val : Int) < maze.num_walls ∧
        CheckWallCollision ball (maze.walls i) ≠ TILT_NONE) ∧
    (CheckMazeCollision ball maze = some 0 ↔
      ¬ ∃ i : Fin 40, (i.val : Int) < maze.num_walls ∧
        CheckWallCollision ball (maze.walls i) ≠ TILT_NONE) :=
  ⟨CheckMazeCollision_one_iff ball maze, CheckMazeCollision_zero_iff ball maze hcap⟩

theorem C1_witness :
    (singleWallMaze scenarioWall).num_walls ≤ 40 ∧
    ((CheckMazeCollision ballOnWall (singleWallMaze scenarioWall) = some 1 ↔
      ∃ i : Fin 40, (i.val : Int) < (singleWallMaze scenarioWall).num_walls ∧
        CheckWallCollision ballOnWall ((singleWallMaze scenarioWall).walls i) ≠ TILT_NONE) ∧
    (CheckMazeCollision ballOnWall (singleWallMaze scenarioWall) = some 0 ↔
      ¬ ∃ i : Fin 40, (i.val : Int) < (singleWallMaze scenarioWall).num_walls ∧
        CheckWallCollision ballOnWall ((singleWallMaze scenarioWall).walls i) ≠ TILT_NONE)) :=
  ⟨by decide,
    C1_CheckMazeCollision_iff_some_wall_hit ballOnWall (singleWallMaze scenarioWall) (by decide)⟩

/-! ## Truncating division by two -/

theorem tdiv_two_of_nonneg (a : Int) (h : 0 ≤ a) : a.tdiv 2 = a / 2 :=
  Int.tdiv_eq_ediv h (by decide)

theorem tdiv_two_of_neg (a : Int) (h : a < 0) : a.tdiv 2 = -((-a) / 2) := by
  have h1 : (-a).tdiv 2 = (-a) / 2 := Int.tdiv_eq_ediv (by omega) (by decide)
  have h2 : (-a).tdiv 2 = -(a.tdiv 2) := Int.neg_tdiv a 2
  omega

theorem tdiv_two_double (a : Int) : (a + a).tdiv 2 = a := by
  rcases Int.lt_or_le (a + a) 0 with h | h
  · rw [tdiv_two_of_neg _ h]; omega
  · rw [tdiv_two_of_nonneg _ h]; omega

theorem one_tdiv_two : (1 : Int).tdiv 2 = 0 := by decide

theorem c_abs_le_iff (n b : Int) : c_abs n ≤ b ↔ -b ≤ n ∧ n ≤ b := by
  unfold c_abs
  split <;> omega

theorem c_abs_le_zero_iff (n : Int) : c_abs n ≤ 0 ↔ n = 0 := by
  rw [c_abs_le_iff]; omega

/-- The overlap test decides alone whether a direction other than `TILT_NONE` is returned. -/
theorem CheckWallCollision_ne_none_iff (ball : Ball) (wall : Wall) :
    CheckWallCollision ball wall ≠ TILT_NONE ↔
      c_abs (CheckWallCollision.dx ball wall) ≤ CheckWallCollision.hx wall ∧
      c_abs (CheckWallCollision.dy ball wall) ≤ CheckWallCollision.hy wall := by
  unfold CheckWallCollision
  by_cases h : c_abs (CheckWallCollision.dx ball wall) ≤ CheckWallCollision.hx wall ∧
      c_abs (CheckWallCollision.dy ball wall) ≤ CheckWallCollision.hy wall
  · rw [if_pos h]
    simp only [h, and_self, iff_true]
    split_ifs <;> simp
  · rw [if_neg h]
    simp [h]

theorem hx_horizontal (wall : Wall) (h : wall.direction = 0) :
    CheckWallCollision.hx wall = wall.length.tdiv 2 := by
  simp [CheckWallCollision.hx, CheckWallCollision.width, h]

theorem hy_horizontal (wall : Wall) (h : wall.direction = 0) :
    CheckWallCollision.hy wall = 0 := by
  simp [CheckWallCollision.hy, CheckWallCollision.height, h, one_tdiv_two]

theorem hx_vertical (wall : Wall) (h : wall.direction = 1) :
    CheckWallCollision.hx wall = 0 := by
  simp [CheckWallCollision.hx, CheckWallCollision.width, h, one_tdiv_two]

theorem hy_vertical (wall : Wall) (h : wall.direction = 1) :
    CheckWallCollision.hy wall = wall.length.tdiv 2 := by
  simp [CheckWallCollision.hy, CheckWallCollision.height, h]

/-! ## C2 -/

/-- C2 (as amended): `CheckWallCollision(ball, wall) ≠ TILT_NONE` if and only if
`|dx| ≤ hx` and `|dy| ≤ hy`, with `(dx, dy)` the offset of the ball's centre
from the wall's midpoint and the half-extent `hx = length/2, hy = 0` for a
horizontal wall (direction 0), `hx = 0, hy = length/2` for a vertical wall
(direction 1): the thickness 1 halves to 0 in integer division. -/
theorem C2_overlap_iff_half_extent_zero_thickness (ball : Ball) (wall : Wall)
    (hlen : 0 < wall.length) :
    (wall.direction = 0 →
      (CheckWallCollision ball wall ≠ TILT_NONE ↔
        c_abs (CheckWallCollision.dx ball wall) ≤ wall.length.tdiv 2 ∧
        c_abs (CheckWallCollision.dy ball wall) ≤ 0)) ∧
    (wall.direction = 1 →
      (CheckWallCollision ball wall ≠ TILT_NONE ↔
        c_abs (CheckWallCollision.dx ball wall) ≤ 0 ∧
        c_abs (CheckWallCollision.dy ball wall) ≤ wall.length.tdiv 2)) := by
  have _ := hlen
  constructor
  · intro h
    rw [CheckWallCollision_ne_none_iff, hx_horizontal wall h, hy_horizontal wall h]
  · intro h
    rw [CheckWallCollision_ne_none_iff, hx_vertical wall h, hy_vertical wall h]

theorem C2_witness :
    0 < scenarioWall.length ∧
    (CheckWallCollision ballOnWall scenarioWall ≠ TILT_NONE ↔
      c_abs (CheckWallCollision.dx ballOnWall scenarioWall) ≤ scenarioWall.length.tdiv 2 ∧
      c_abs (CheckWallCollision.dy ballOnWall scenarioWall) ≤ 0) :=
  ⟨by decide,
    (C2_overlap_iff_half_extent_zero_thickness ballOnWall scenarioWall (by decide)).1 rfl⟩

/-- C2 as stated fails: one row below the horizontal scenario wall the offset
is `(0, 1)`, inside the claimed half-extent `(10, 1)`, and the result is
`TILT_NONE`. -/
theorem C2_counterexample :
    scenarioWall.direction = 0 ∧ 0 < scenarioWall.length ∧
    ¬ (CheckWallCollision ballOneRowOff scenarioWall ≠ TILT_NONE ↔
        c_abs (CheckWallCollision.dx ballOneRowOff scenarioWall) ≤ scenarioWall.length.tdiv 2 ∧
        c_abs (CheckWallCollision.dy ballOneRowOff scenarioWall) ≤ 1) := by
  decide

/-! ## C3 -/

theorem dx_horizontal (ball : Ball) (wall : Wall) (h : wall.direction = 0) :
    CheckWallCollision.dx ball wall = ball.x - (wall.x + (wall.x + wall.length)).tdiv 2 := by
  simp [CheckWallCollision.dx, CheckWallCollision.wallStartX, CheckWallCollision.wallEndX, h]

theorem dy_horizontal (ball : Ball) (wall : Wall) (h : wall.direction = 0) :
    CheckWallCollision.dy ball wall = ball.y - wall.y := by
  simp [CheckWallCollision.dy, CheckWallCollision.wallStartY, CheckWallCollision.wallEndY, h,
    tdiv_two_double]

theorem dx_vertical (ball : Ball) (wall : Wall) (h : wall.direction ≠ 0) :
    CheckWallCollision.dx ball wall = ball.x - wall.x := by
  simp [CheckWallCollision.dx, CheckWallCollision.wallStartX, CheckWallCollision.wallEndX, h,
    tdiv_two_double]

theorem dy_vertical (ball : Ball) (wall : Wall) (h : wall.direction ≠ 0) :
    CheckWallCollision.dy ball wall = ball.y - (wall.y + (wall.y + wall.length)).tdiv 2 := by
  simp [CheckWallCollision.dy, CheckWallCollision.wallStartY, CheckWallCollision.wallEndY, h]

/-- Along the axis of a wall of length `len > 0` that starts at `o`, a centre
`b` on one of its cells passes the test `|b - (o + (o + len))/2| ≤ len/2`
unless `len` is odd, `2*o + len < 0` and `b = o`. -/
theorem on_cell_within_iff (b o len : Int) (hlen : 0 < len) (h1 : o ≤ b) (h2 : b < o + len) :
    c_abs (b - (o + (o + len)).tdiv 2) ≤ len.tdiv 2 ↔
      (len % 2 = 0 ∨ 0 ≤ 2 * o + len ∨ b ≠ o) := by
  rw [c_abs_le_iff, tdiv_two_of_nonneg len (by omega)]
  rcases Int.lt_or_le (o + (o + len)) 0 with h | h
  · rw [tdiv_two_of_neg _ h]; omega
  · rw [tdiv_two_of_nonneg _ h]; omega

/-- C3 (as amended): for a wall with `length > 0` and a ball of any radius
whose centre lies on a cell the wall occupies, `CheckWallCollision` returns a
direction other than `TILT_NONE` exactly when the length is even, or
`2*origin + length ≥ 0` along the wall's axis (so for every origin `≥ 0`), or
the ball is not on the wall's first cell; and whenever it does,
`CheckMazeCollision` returns 1 for every maze that holds the wall at an index
below `num_walls`. -/
theorem C3_ball_on_wall_cell_collides (ball : Ball) (wall : Wall) (hlen : 0 < wall.length) :
    (wall.direction = 0 → ball.y = wall.y → wall.x ≤ ball.x → ball.x < wall.x + wall.length →
      (CheckWallCollision ball wall ≠ TILT_NONE ↔
        (wall.length % 2 = 0 ∨ 0 ≤ 2 * wall.x + wall.length ∨ ball.x ≠ wall.x))) ∧
    (wall.direction = 1 → ball.x = wall.x → wall.y ≤ ball.y → ball.y < wall.y + wall.length →
      (CheckWallCollision ball wall ≠ TILT_NONE ↔
        (wall.length % 2 = 0 ∨ 0 ≤ 2 * wall.y + wall.length ∨ ball.y ≠ wall.y))) ∧
    (CheckWallCollision ball wall ≠ TILT_NONE →
      ∀ (maze : Maze) (i : Fin 40), (i.val : Int) < maze.num_walls → maze.walls i = wall →
        CheckMazeCollision ball maze = some 1) := by
  refine ⟨?_, ?_, ?_⟩
  · intro hd hy h1 h2
    rw [CheckWallCollision_ne_none_iff, hx_horizontal wall hd, hy_horizontal wall hd,
      dx_horizontal ball wall hd, dy_horizontal ball wall hd, c_abs_le_zero_iff,
      on_cell_within_iff ball.x wall.x wall.length hlen h1 h2]
    constructor
    · exact fun h => h.1
    · exact fun h => ⟨h, by omega⟩
  · intro hd hx h1 h2
    have hd0 : wall.direction ≠ 0 := by omega
    rw [CheckWallCollision_ne_none_iff, hx_vertical wall hd, hy_vertical wall hd,
      dx_vertical ball wall hd0, dy_vertical ball wall hd0, c_abs_le_zero_iff,
      on_cell_within_iff ball.y wall.y wall.length hlen h1 h2]
    constructor
    · exact fun h => h.2
    · exact fun h => ⟨by omega, h⟩
  · intro hit maze i hi hw
    rw [CheckMazeCollision_one_iff]
    exact ⟨i, hi, by rw [hw]; exact hit⟩

/-- Scenario A: wall `{x: 0, y: 50, length: 20}`, ball of radius 3 at `(10, 50)`. -/
theorem C3_witness :
    0 < scenarioWall.length ∧
    CheckWallCollision ballOnWall scenarioWall ≠ TILT_NONE ∧
    CheckMazeCollision ballOnWall (singleWallMaze scenarioWall) = some 1 :=
  have h := C3_ball_on_wall_cell_collides ballOnWall scenarioWall (by decide)
  have hit : CheckWallCollision ballOnWall scenarioWall ≠ TILT_NONE :=
    (h.1 rfl rfl (by decide) (by decide)).2 (Or.inl (by decide))
  ⟨by decide, hit, h.2.2 hit (singleWallMaze scenarioWall) 0 (by decide) rfl⟩

/-- C3 as stated fails at a negative origin: the wall of length 3 at `x = -5`
occupies the cell `(-5, 0)`, its midpoint is computed as `(-5 + -2)/2 = -3`,
so a ball on that cell has `dx = -2` against `hx = 1` and does not collide. -/
theorem C3_counterexample :
    0 < negativeOriginWall.length ∧ negativeOriginWall.direction = 0 ∧
    ballOnFirstCell.y = negativeOriginWall.y ∧
    negativeOriginWall.x ≤ ballOnFirstCell.x ∧
    ballOnFirstCell.x < negativeOriginWall.x + negativeOriginWall.length ∧
    CheckWallCollision ballOnFirstCell negativeOriginWall = TILT_NONE ∧
    CheckMazeCollision ballOnFirstCell (singleWallMaze negativeOriginWall) = some 0 := by
  decide

/-! ## C4 -/

/-- C4: a ball whose centre is strictly outside the half-extent
`hx = length/2, hy = 1` (horizontal wall) or `hx = 1, hy = length/2`
(vertical wall) in at least one axis gets `TILT_NONE` from
`CheckWallCollision`, and `CheckMazeCollision` returns 0 for a maze made of
that single wall. -/
theorem C4_outside_half_extent_no_collision (ball : Ball) (wall : Wall) (maze : Maze)
    (hout :
      (wall.direction = 0 ∧
        (c_abs (CheckWallCollision.dx ball wall) > wall.length.tdiv 2 ∨
          c_abs (CheckWallCollision.dy ball wall) > 1)) ∨
      (wall.direction = 1 ∧
        (c_abs (CheckWallCollision.dx ball wall) > 1 ∨
          c_abs (CheckWallCollision.dy ball wall) > wall.length.tdiv 2)))
    (hone : maze.num_walls = 1) (hwall : maze.walls 0 = wall) :
    CheckWallCollision ball wall = TILT_NONE ∧ CheckMazeCollision ball maze = some 0 := by
  have hnone : CheckWallCollision ball wall = TILT_NONE := by
    by_contra hne
    rw [← ne_eq, CheckWallCollision_ne_none_iff] at hne
    rcases hout with ⟨hd, h⟩ | ⟨hd, h⟩
    · rw [hx_horizontal wall hd, hy_horizontal wall hd] at hne
      omega
    · rw [hx_vertical wall hd, hy_vertical wall hd] at hne
      omega
  refine ⟨hnone, ?_⟩
  rw [CheckMazeCollision_zero_iff ball maze (by omega)]
  rintro ⟨i, hi, hit⟩
  have hi0 : i = 0 := by
    apply Fin.ext
    simp only [Fin.val_zero]
    omega
  rw [hi0, hwall] at hit
  exact hit hnone

/-- Scenario B: wall `{x: 0, y: 50, length: 20}`, ball at `(10, 20)`. -/
theorem C4_witness :
    CheckWallCollision ballFarAway scenarioWall = TILT_NONE ∧
    CheckMazeCollision ballFarAway (singleWallMaze scenarioWall) = some 0 :=
  C4_outside_half_extent_no_collision ballFarAway scenarioWall (singleWallMaze scenarioWall)
    (Or.inl ⟨rfl, Or.inr (by decide)⟩) rfl rfl

/-! ## C5 -/

/-- C5: for a wall with `length > 0` of either orientation, a ball whose centre
is the wall's midpoint as `CheckWallCollision` computes it (`dx = 0` and
`dy = 0`) gets a direction other than `TILT_NONE`. -/
theorem C5_ball_on_midpoint_collides (ball : Ball) (wall : Wall) (hlen : 0 < wall.length)
    (hdx : CheckWallCollision.dx ball wall = 0) (hdy : CheckWallCollision.dy ball wall = 0) :
    CheckWallCollision ball wall ≠ TILT_NONE := by
  rw [CheckWallCollision_ne_none_iff, hdx, hdy]
  have hhalf : 0 ≤ wall.length.tdiv 2 := by
    rw [tdiv_two_of_nonneg _ (by omega)]; omega
  have habs : c_abs 0 = 0 := by decide
  rw [habs]
  unfold CheckWallCollision.hx CheckWallCollision.hy CheckWallCollision.width
    CheckWallCollision.height
  constructor
  · split
    · exact hhalf
    · decide
  · split
    · exact hhalf
    · decide

theorem C5_witness :
    0 < scenarioWall.length ∧ CheckWallCollision.dx ballOnWall scenarioWall = 0 ∧
    CheckWallCollision.dy ballOnWall scenarioWall = 0 ∧
    CheckWallCollision ballOnWall scenarioWall ≠ TILT_NONE :=
  ⟨by decide, by decide, by decide,
    C5_ball_on_midpoint_collides ballOnWall scenarioWall (by decide) (by decide) (by decide)⟩

/-! ## C6 -/

/-- C6: with `TILT_THRESHOLD = 2`, `DetectTilt(x, y, z)` is `TILT_LEFT` when
`x < -2`, `TILT_RIGHT` when `x > 2`, and for `|x| ≤ 2` it is `TILT_UP` when
`y < -2`, `TILT_DOWN` when `y > 2` and `TILT_NONE` when `|y| ≤ 2`; so with both
`|x| > 2` and `|y| > 2` the x axis alone decides. -/
theorem C6_DetectTilt_thresholds (x y z : Int) :
    TILT_THRESHOLD = 2 ∧
    (x < -2 → DetectTilt x y z = TILT_LEFT) ∧
    (x > 2 → DetectTilt x y z = TILT_RIGHT) ∧
    (-2 ≤ x → x ≤ 2 → y < -2 → DetectTilt x y z = TILT_UP) ∧
    (-2 ≤ x → x ≤ 2 → y > 2 → DetectTilt x y z = TILT_DOWN) ∧
    (-2 ≤ x → x ≤ 2 → -2 ≤ y → y ≤ 2 → DetectTilt x y z = TILT_NONE) := by
  unfold DetectTilt TILT_THRESHOLD
  refine ⟨rfl, ?_, ?_, ?_, ?_, ?_⟩
  · intro h
    rw [if_pos h]
  · intro h
    rw [if_neg (by omega), if_pos h]
  · intro h1 h2 h3
    rw [if_neg (by omega), if_neg (by omega), if_pos h3]
  · intro h1 h2 h3
    rw [if_neg (by omega), if_neg (by omega), if_neg (by omega), if_pos h3]
  · intro h1 h2 h3 h4
    rw [if_neg (by omega), if_neg (by omega), if_neg (by omega), if_neg (by omega)]

/-- Scenario C: the reading `(5, 0, 0)` is classified `TILT_RIGHT`. -/
theorem C6_witness : DetectTilt 5 0 0 = TILT_RIGHT :=
  (C6_DetectTilt_thresholds 5 0 0).2.2.1 (by decide)

/-! ## C7 -/

/-- C7: `InitializeMaze(maze, maze_number)` ends inside `StopWithError`, which
never returns, if and only if `maze_number < 0` or `maze_number ≥ 4`; `*maze`
is then exactly what it was at the call (no field has been written); and for
every `maze_number` in `[0, 4)` the call returns. -/
theorem C7_InitializeMaze_stops_iff_out_of_range (catalog : MazeCatalog) (maze : Maze)
    (maze_number : Int) :
    ((∃ message m, InitializeMaze catalog maze maze_number = InitResult.stopped message m) ↔
      (maze_number < 0 ∨ maze_number ≥ 4)) ∧
    ((maze_number < 0 ∨ maze_number ≥ 4) →
      InitializeMaze catalog maze maze_number =
        InitResult.stopped "Invalid maze number" maze) ∧
    ((0 ≤ maze_number ∧ maze_number < 4) →
      ∃ m, InitializeMaze catalog maze maze_number = InitResult.returned m) := by
  by_cases h : 0 ≤ maze_number ∧ maze_number < 4
  · have hret : ∃ m, InitializeMaze catalog maze maze_number = InitResult.returned m := by
      unfold InitializeMaze
      simp only
      rw [if_pos h]
      exact ⟨_, rfl⟩
    refine ⟨?_, ?_, fun _ => hret⟩
    · constructor
      · rintro ⟨message, m, hm⟩
        obtain ⟨r, hr⟩ := hret
        rw [hr] at hm
        cases hm
      · intro hout
        omega
    · intro hout
      omega
  · have hstop : InitializeMaze catalog maze maze_number =
        InitResult.stopped "Invalid maze number" maze := by
      unfold InitializeMaze StopWithError
      simp only
      rw [if_neg h]
    refine ⟨?_, fun _ => hstop, ?_⟩
    · constructor
      · intro _
        omega
      · intro _
        exact ⟨_, _, hstop⟩
    · intro hin
      exact absurd hin h

theorem C7_witness :
    InitializeMaze (catalogOf scenarioWall) (singleWallMaze verticalWall) 4 =
      InitResult.stopped "Invalid maze number" (singleWallMaze verticalWall) :=
  (C7_InitializeMaze_stops_iff_out_of_range (catalogOf scenarioWall)
    (singleWallMaze verticalWall) 4).2.1 (Or.inr (by decide))

/-! ## C8 -/

/-- The loop of `IsWallBelow` returns 1 exactly when some wall it is due to
visit passes the test of its body. -/
theorem IsWallBelow_loop_one (ball : Ball) (maze : Maze) (k i : Nat) :
    IsWallBelow.loop ball maze k i = some 1 ↔
      ∃ j w, i ≤ j ∧ j < i + k ∧ maze.wallAt j = some w ∧
        (ball.y + ball.radius ≥ w.y ∧ ball.y ≤ w.y + w.length) := by
  induction k generalizing i with
  | zero =>
    simp [IsWallBelow.loop]
    intro j w h1 h2
    omega
  | succ k ih =>
    unfold IsWallBelow.loop
    cases hw : maze.wallAt i with
    | none =>
      constructor
      · intro h; cases h
      · rintro ⟨j, w, h1, _, h3, _⟩
        obtain ⟨v, hv⟩ := wallAt_of_lt maze i j w h3 h1
        rw [hw] at hv
        cases hv
    | some wall =>
      simp only
      by_cases hit : ball.y + ball.radius ≥ wall.y ∧ ball.y ≤ wall.y + wall.length
      · rw [if_pos hit]
        simp only [true_iff]
        exact ⟨i, wall, le_refl i, by omega, hw, hit⟩
      · rw [if_neg hit, ih (i + 1)]
        constructor
        · rintro ⟨j, w, h1, h2, h3, h4⟩
          exact ⟨j, w, by omega, by omega, h3, h4⟩
        · rintro ⟨j, w, h1, h2, h3, h4⟩
          have hne : j ≠ i := by
            rintro rfl
            rw [hw] at h3
            cases h3
            exact hit h4
          exact ⟨j, w, by omega, by omega, h3, h4⟩

theorem IsWallBelow_one_iff (ball : Ball) (maze : Maze) :
    IsWallBelow ball maze = some 1 ↔
      ∃ i : Fin 40, (i.val : Int) < maze.num_walls ∧
        (ball.y + ball.radius ≥ (maze.walls i).y ∧
          ball.y ≤ (maze.walls i).y + (maze.walls i).length) := by
  unfold IsWallBelow
  rw [IsWallBelow_loop_one]
  exact visited_iff maze (fun w => ball.y + ball.radius ≥ w.y ∧ ball.y ≤ w.y + w.length)

/-- C8 (as amended): for a ball with `radius > 0` and a maze whose walls in use
have `length > 0`, `IsWallBelow` returns 1 whenever the lower half of the
ball's vertical extent, `[ball.y, ball.y + radius]`, overlaps the vertical span
of one of the `num_walls` walls (the row `wall.y` of a horizontal wall, the
rows `wall.y ≤ y < wall.y + length` of a vertical wall), whatever the x
coordinates. -/
theorem C8_IsWallBelow_of_lower_half_overlap (ball : Ball) (maze : Maze)
    (hradius : 0 < ball.radius)
    (hlen : ∀ i : Fin 40, (i.val : Int) < maze.num_walls → 0 < (maze.walls i).length)
    (hoverlap : ∃ i : Fin 40, (i.val : Int) < maze.num_walls ∧
      (((maze.walls i).direction = 0 ∧
          ball.y ≤ (maze.walls i).y ∧ (maze.walls i).y ≤ ball.y + ball.radius) ∨
        ((maze.walls i).direction = 1 ∧
          ball.y ≤ (maze.walls i).y + (maze.walls i).length - 1 ∧
          (maze.walls i).y ≤ ball.y + ball.radius))) :
    IsWallBelow ball maze = some 1 := by
  have _ := hradius
  rw [IsWallBelow_one_iff]
  obtain ⟨i, hi, h⟩ := hoverlap
  have hpos := hlen i hi
  refine ⟨i, hi, ?_⟩
  rcases h with ⟨_, h1, h2⟩ | ⟨_, h1, h2⟩
  · constructor <;> omega
  · constructor <;> omega

theorem C8_witness :
    0 < ballBesideWall.radius ∧
    IsWallBelow ballBesideWall (singleWallMaze verticalWall) = some 1 :=
  ⟨by decide,
    C8_IsWallBelow_of_lower_half_overlap ballBesideWall (singleWallMaze verticalWall)
      (by decide) (fun _ _ => (by decide : 0 < verticalWall.length))
      ⟨0, by decide, Or.inr ⟨rfl, by decide, by decide⟩⟩⟩

/-- C8 as stated fails: the ball of radius 3 centred at row 12 covers the rows
`9 .. 15`, row 9 belongs to the vertical wall on rows `0 .. 9`, and
`IsWallBelow` returns 0 because its second test compares the centre, not the
top edge, with `wall.y + length`. -/
theorem C8_counterexample :
    0 < ballTouchingFromBelow.radius ∧ 0 < verticalWall.length ∧
    verticalWall.direction = 1 ∧
    (singleWallMaze verticalWall).walls 0 = verticalWall ∧
    (0 : Int) < (singleWallMaze verticalWall).num_walls ∧
    ballTouchingFromBelow.y - ballTouchingFromBelow.radius ≤
      verticalWall.y + verticalWall.length - 1 ∧
    verticalWall.y ≤ ballTouchingFromBelow.y + ballTouchingFromBelow.radius ∧
    IsWallBelow ballTouchingFromBelow (singleWallMaze verticalWall) = some 0 := by
  decide

/-! ## C9 -/

/-- C9 (the code at the failing inputs): the ball one step left of the goal
`(50, 64)` is tilted right, and after the move and the clamp its centre is the
goal coordinate `(maze.x + end_x, maze.y + end_y)`.  In the maze whose walls
lie two rows below the goal `IsWallBelow` holds there and the pass ends the
session with "Game Over"; in the maze whose walls are far away nothing holds
and the session just goes on.  The body of the loop has no test of the goal
coordinate and no exit other than "Game Over". -/
theorem C9_goal_reached_is_never_a_win :
    ballAtGoal.x = mazeWallUnderGoal.x + mazeWallUnderGoal.end_x ∧
    ballAtGoal.y = mazeWallUnderGoal.y + mazeWallUnderGoal.end_y ∧
    moveAndClamp sampleParams mazeWallUnderGoal stateLeftOfGoal.ball (DetectTilt 5 0 0) =
      ballAtGoal ∧
    CheckMazeCollision ballAtGoal mazeWallUnderGoal = some 0 ∧
    IsWallBelow ballAtGoal mazeWallUnderGoal = some 1 ∧
    tick sampleParams mazeWallUnderGoal stateLeftOfGoal 5 0 0 =
      some ({ ball := ballAtGoal, currentTilt := TILT_RIGHT }, TickOutcome.GameOver) ∧
    ballAtGoal.x = mazeWallFarFromGoal.x + mazeWallFarFromGoal.end_x ∧
    ballAtGoal.y = mazeWallFarFromGoal.y + mazeWallFarFromGoal.end_y ∧
    tick sampleParams mazeWallFarFromGoal stateLeftOfGoal 5 0 0 =
      some ({ ball := ballAtGoal, currentTilt := TILT_RIGHT }, TickOutcome.Running) := by
  decide

/-! ## C10 -/

/-- C10: if `CheckMazeCollision(ball, maze)` returns 1, it still returns 1 on
the maze obtained by storing a wall `w` at index `num_walls` and increasing
`num_walls` by one. -/
theorem C10_adding_a_wall_keeps_collision (ball : Ball) (maze : Maze) (w : Wall)
    (hhit : CheckMazeCollision ball maze = some 1) :
    CheckMazeCollision ball
      { maze with
        walls := fun j => if (j.val : Int) = maze.num_walls then w else maze.walls j
        num_walls := maze.num_walls + 1 } = some 1 := by
  rw [CheckMazeCollision_one_iff] at hhit ⊢
  obtain ⟨i, hi, hcol⟩ := hhit
  refine ⟨i, ?_, ?_⟩
  · simp only
    omega
  · simp only
    rw [if_neg (by omega)]
    exact hcol

theorem C10_witness :
    CheckMazeCollision ballOnWall (singleWallMaze scenarioWall) = some 1 ∧
    CheckMazeCollision ballOnWall
      { singleWallMaze scenarioWall with
        walls := fun j =>
          if (j.val : Int) = (singleWallMaze scenarioWall).num_walls then verticalWall
          else (singleWallMaze scenarioWall).walls j
        num_walls := (singleWallMaze scenarioWall).num_walls + 1 } = some 1 :=
  ⟨by decide,
    C10_adding_a_wall_keeps_collision ballOnWall (singleWallMaze scenarioWall) verticalWall
      (by decide)⟩

/-! ## C11 -/

theorem clampBall_x (p : PlayParams) (maze : Maze) (ball : Ball) :
    (clampBall p maze ball).x =
      if (if ball.x < maze.x then maze.x else ball.x) > maze.x + p.MAZE_WIDTH then
        maze.x + p.MAZE_WIDTH
      else (if ball.x < maze.x then maze.x else ball.x) := by
  unfold clampBall
  simp only
  split_ifs <;> rfl

theorem clampBall_y (p : PlayParams) (maze : Maze) (ball : Ball) :
    (clampBall p maze ball).y =
      if (if ball.y < maze.y then maze.y else ball.y) > maze.y + p.MAZE_HEIGHT then
        maze.y + p.MAZE_HEIGHT
      else (if ball.y < maze.y then maze.y else ball.y) := by
  unfold clampBall
  simp only
  split_ifs <;> rfl

theorem clampBall_radius (p : PlayParams) (maze : Maze) (ball : Ball) :
    (clampBall p maze ball).radius = ball.radius := by
  unfold clampBall
  simp only
  split_ifs <;> rfl

theorem Ball_eq_of_fields (a b : Ball) (hx : a.x = b.x) (hy : a.y = b.y)
    (hr : a.radius = b.radius) : a = b := by
  cases a
  cases b
  simp only at hx hy hr
  subst hx hy hr
  rfl

/-- C11: for `MAZE_WIDTH ≥ 0` and `MAZE_HEIGHT ≥ 0`, the clamp step leaves every
position inside `[maze.x, maze.x + MAZE_WIDTH] × [maze.y, maze.y + MAZE_HEIGHT]`
unchanged, and applying it twice gives the same ball as applying it once. -/
theorem C11_clamp_fixes_inside_and_is_idempotent (p : PlayParams) (maze : Maze) (ball : Ball)
    (hwidth : 0 ≤ p.MAZE_WIDTH) (hheight : 0 ≤ p.MAZE_HEIGHT) :
    ((maze.x ≤ ball.x ∧ ball.x ≤ maze.x + p.MAZE_WIDTH ∧
        maze.y ≤ ball.y ∧ ball.y ≤ maze.y + p.MAZE_HEIGHT) →
      clampBall p maze ball = ball) ∧
    clampBall p maze (clampBall p maze ball) = clampBall p maze ball := by
  constructor
  · rintro ⟨h1, h2, h3, h4⟩
    apply Ball_eq_of_fields
    · rw [clampBall_x]
      split_ifs <;> omega
    · rw [clampBall_y]
      split_ifs <;> omega
    · exact clampBall_radius p maze ball
  · apply Ball_eq_of_fields
    · rw [clampBall_x p maze (clampBall p maze ball), clampBall_x p maze ball]
      split_ifs <;> omega
    · rw [clampBall_y p maze (clampBall p maze ball), clampBall_y p maze ball]
      split_ifs <;> omega
    · rw [clampBall_radius, clampBall_radius]

theorem C11_witness :
    0 ≤ sampleParams.MAZE_WIDTH ∧ 0 ≤ sampleParams.MAZE_HEIGHT ∧
    clampBall sampleParams mazeWallUnderGoal ballOutsideRectangle =
      { x := 96, y := 0, radius := 3 } ∧
    clampBall sampleParams mazeWallUnderGoal
        (clampBall sampleParams mazeWallUnderGoal ballOutsideRectangle) =
      clampBall sampleParams mazeWallUnderGoal ballOutsideRectangle :=
  ⟨by decide, by decide, by decide,
    (C11_clamp_fixes_inside_and_is_idempotent sampleParams mazeWallUnderGoal
      ballOutsideRectangle (by decide) (by decide)).2⟩

/-! ## C13 -/

/-- C13: `DetectTilt` does not depend on its `z` argument: for all `x`, `y`,
`z1`, `z2`, `DetectTilt(x, y, z1) = DetectTilt(x, y, z2)`.  It reads no state,
so its result is a function of `(x, y)` alone and equal inputs give equal
results. -/
theorem C13_DetectTilt_ignores_z (x y z1 z2 : Int) :
    DetectTilt x y z1 = DetectTilt x y z2 := by
  rfl

/-! ## C12 -/

theorem InitializeMaze_loop_fields (d xv yv l : Nat → Int) (k i : Nat) (maze : Maze) :
    (InitializeMaze.loop d xv yv l k i maze).x = maze.x ∧
    (InitializeMaze.loop d xv yv l k i maze).y = maze.y ∧
    (InitializeMaze.loop d xv yv l k i maze).num_walls = maze.num_walls ∧
    (InitializeMaze.loop d xv yv l k i maze).end_x = maze.end_x ∧
    (InitializeMaze.loop d xv yv l k i maze).end_y = maze.end_y := by
  induction k generalizing i maze with
  | zero => exact ⟨rfl, rfl, rfl, rfl, rfl⟩
  | succ k ih =>
    unfold InitializeMaze.loop
    exact ih (i + 1) _

/-- After the loop, the entries `i .. i + k - 1` hold the walls made from the
four arrays and every other entry is as before. -/
theorem InitializeMaze_loop_walls (d xv yv l : Nat → Int) (k i : Nat) (maze : Maze)
    (j : Fin 40) :
    (InitializeMaze.loop d xv yv l k i maze).walls j =
      if i ≤ j.val ∧ j.val < i + k then CreateWall (d j.val) (xv j.val) (yv j.val) (l j.val)
      else maze.walls j := by
  induction k generalizing i maze with
  | zero =>
    unfold InitializeMaze.loop
    rw [if_neg (by omega)]
  | succ k ih =>
    unfold InitializeMaze.loop
    simp only
    rw [ih (i + 1)]
    by_cases h1 : i + 1 ≤ j.val ∧ j.val < i + 1 + k
    · rw [if_pos h1, if_pos (by omega)]
    · rw [if_neg h1]
      unfold Maze.setWall
      simp only
      by_cases h2 : j.val = i
      · rw [if_pos h2, if_pos (by omega), h2]
      · rw [if_neg h2, if_neg (by omega)]

/-- C12: for every `maze_number` in `[0, 4)`, `InitializeMaze` returns a maze
with `num_walls = 20 = MAX_WALLS`, origin `(0, 0)`, goal `(50, 64)` and, for
every `i` in `[0, 20)`, `walls[i]` made of the `i`-th entries of the selected
direction, x, y and length arrays; count and goal are the same for all four. -/
theorem C12_InitializeMaze_builds_catalog_maze (catalog : MazeCatalog) (maze : Maze)
    (maze_number : Int) (hrange : 0 ≤ maze_number ∧ maze_number < 4) :
    MAX_WALLS = 20 ∧
    ∃ m, InitializeMaze catalog maze maze_number = InitResult.returned m ∧
      m.num_walls = 20 ∧ m.x = 0 ∧ m.y = 0 ∧ m.end_x = 50 ∧ m.end_y = 64 ∧
      ∀ i : Fin 40, i.val < 20 →
        m.walls i =
          { direction := catalog.direction_lists maze_number.toNat i.val
            x := catalog.x_lists maze_number.toNat i.val
            y := catalog.y_lists maze_number.toNat i.val
            length := catalog.length_lists maze_number.toNat i.val } := by
  refine ⟨rfl, ?_⟩
  unfold InitializeMaze
  simp only
  rw [if_pos hrange]
  refine ⟨_, rfl, ?_⟩
  obtain ⟨hx, hy, hn, hex, hey⟩ :=
    InitializeMaze_loop_fields (catalog.direction_lists maze_number.toNat)
      (catalog.x_lists maze_number.toNat) (catalog.y_lists maze_number.toNat)
      (catalog.length_lists maze_number.toNat) (MAX_WALLS.toNat) 0
      { maze with num_walls := MAX_WALLS, x := 0, y := 0, end_x := 50, end_y := 64 }
  refine ⟨hn, hx, hy, hex, hey, ?_⟩
  intro i hi
  rw [InitializeMaze_loop_walls]
  have h20 : MAX_WALLS.toNat = 20 := by decide
  rw [if_pos (by omega)]
  rfl

theorem C12_witness :
    ∃ m, InitializeMaze (catalogOf scenarioWall) (singleWallMaze verticalWall) 1 =
        InitResult.returned m ∧
      m.num_walls = 20 ∧ m.x = 0 ∧ m.y = 0 ∧ m.end_x = 50 ∧ m.end_y = 64 ∧
      ∀ i : Fin 40, i.val < 20 →
        m.walls i =
          { direction := (catalogOf scenarioWall).direction_lists (1 : Int).toNat i.val
            x := (catalogOf scenarioWall).x_lists (1 : Int).toNat i.val
            y := (catalogOf scenarioWall).y_lists (1 : Int).toNat i.val
            length := (catalogOf scenarioWall).length_lists (1 : Int).toNat i.val } :=
  (C12_InitializeMaze_builds_catalog_maze (catalogOf scenarioWall) (singleWallMaze verticalWall)
    1 (by decide)).2

/-! ## C17 -/

theorem hx_of_direction_ne_zero (wall : Wall) (h : wall.direction ≠ 0) :
    CheckWallCollision.hx wall = 0 := by
  simp [CheckWallCollision.hx, CheckWallCollision.width, h, one_tdiv_two]

/-- Whenever the overlap test passes, both cross terms are zero. -/
theorem cross_terms_zero_of_overlap (ball : Ball) (wall : Wall)
    (h : c_abs (CheckWallCollision.dx ball wall) ≤ CheckWallCollision.hx wall ∧
      c_abs (CheckWallCollision.dy ball wall) ≤ CheckWallCollision.hy wall) :
    CheckWallCollision.crossWidth ball wall = 0 ∧
    CheckWallCollision.crossHeight ball wall = 0 := by
  unfold CheckWallCollision.crossWidth CheckWallCollision.crossHeight
  by_cases hd : wall.direction = 0
  · have hy0 := hy_horizontal wall hd
    rw [hy0, c_abs_le_zero_iff] at h
    rw [hy0, h.2]
    simp
  · have hx0 := hx_of_direction_ne_zero wall hd
    rw [hx0, c_abs_le_zero_iff] at h
    rw [hx0, h.1]
    simp

/-- C17: `CheckWallCollision` returns only `TILT_NONE`, `TILT_UP` or
`TILT_RIGHT`.  Whenever the overlap test passes both cross terms `hx*dy` and
`hy*dx` are 0, and the result is `TILT_UP` for a horizontal wall (direction 0)
and `TILT_RIGHT` for any other direction value; `TILT_DOWN` and `TILT_LEFT`
are never returned. -/
theorem C17_CheckWallCollision_only_none_up_right (ball : Ball) (wall : Wall) :
    (CheckWallCollision ball wall = TILT_NONE ∨ CheckWallCollision ball wall = TILT_UP ∨
      CheckWallCollision ball wall = TILT_RIGHT) ∧
    (CheckWallCollision ball wall ≠ TILT_NONE →
      CheckWallCollision.crossWidth ball wall = 0 ∧
      CheckWallCollision.crossHeight ball wall = 0 ∧
      (wall.direction = 0 → CheckWallCollision ball wall = TILT_UP) ∧
      (wall.direction ≠ 0 → CheckWallCollision ball wall = TILT_RIGHT)) ∧
    CheckWallCollision ball wall ≠ TILT_DOWN ∧
    CheckWallCollision ball wall ≠ TILT_LEFT := by
  by_cases hov : c_abs (CheckWallCollision.dx ball wall) ≤ CheckWallCollision.hx wall ∧
      c_abs (CheckWallCollision.dy ball wall) ≤ CheckWallCollision.hy wall
  · obtain ⟨hcw, hch⟩ := cross_terms_zero_of_overlap ball wall hov
    have hval : CheckWallCollision ball wall =
        if wall.direction = 0 then TILT_UP else TILT_RIGHT := by
      unfold CheckWallCollision
      rw [if_pos hov, hcw, hch]
      simp
    by_cases hd : wall.direction = 0
    · rw [if_pos hd] at hval
      rw [hval]
      simp [hcw, hch, hd]
    · rw [if_neg hd] at hval
      rw [hval]
      simp [hcw, hch, hd]
  · have hval : CheckWallCollision ball wall = TILT_NONE := by
      unfold CheckWallCollision
      rw [if_neg hov]
    rw [hval]
    simp

theorem C17_witness :
    CheckWallCollision ballOnWall scenarioWall = TILT_UP :=
  ((C17_CheckWallCollision_only_none_up_right ballOnWall scenarioWall).2.1
    (by decide)).2.2.1 rfl

/-! ## Facts about one pass of the play loop -/

theorem IsWallBelow_loop_value (ball : Ball) (maze : Maze) (k i : Nat) (b : Int)
    (h : IsWallBelow.loop ball maze k i = some b) : b = 0 ∨ b = 1 := by
  induction k generalizing i with
  | zero =>
    unfold IsWallBelow.loop at h
    cases h
    exact Or.inl rfl
  | succ k ih =>
    unfold IsWallBelow.loop at h
    cases hw : maze.wallAt i with
    | none =>
      rw [hw] at h
      cases h
    | some wall =>
      rw [hw] at h
      simp only at h
      split_ifs at h
      · cases h
        exact Or.inr rfl
      · exact ih (i + 1) h

theorem CheckMazeCollision_loop_value (ball : Ball) (maze : Maze) (k i : Nat) (b : Int)
    (h : CheckMazeCollision.loop ball maze k i = some b) : b = 0 ∨ b = 1 := by
  induction k generalizing i with
  | zero =>
    unfold CheckMazeCollision.loop at h
    cases h
    exact Or.inl rfl
  | succ k ih =>
    unfold CheckMazeCollision.loop at h
    cases hw : maze.wallAt i with
    | none =>
      rw [hw] at h
      cases h
    | some wall =>
      rw [hw] at h
      simp only at h
      split_ifs at h
      · cases h
        exact Or.inr rfl
      · exact ih (i + 1) h

theorem IsWallBelow_loop_some (ball : Ball) (maze : Maze) (k i : Nat) (hcap : i + k ≤ 40) :
    ∃ b, IsWallBelow.loop ball maze k i = some b := by
  induction k generalizing i with
  | zero => exact ⟨0, rfl⟩
  | succ k ih =>
    unfold IsWallBelow.loop
    have hi : i < 40 := by omega
    rw [wallAt_fin maze ⟨i, hi⟩]
    simp only
    split_ifs
    · exact ⟨1, rfl⟩
    · exact ih (i + 1) (by omega)

theorem IsWallBelow_some (ball : Ball) (maze : Maze) (hcap : maze.num_walls ≤ 40) :
    ∃ b, IsWallBelow ball maze = some b :=
  IsWallBelow_loop_some ball maze _ 0 (by omega)

theorem CheckMazeCollision_some (ball : Ball) (maze : Maze) (hcap : maze.num_walls ≤ 40) :
    ∃ b, CheckMazeCollision ball maze = some b := by
  by_cases h : ∃ i : Fin 40, (i.val : Int) < maze.num_walls ∧
      CheckWallCollision ball (maze.walls i) ≠ TILT_NONE
  · exact ⟨1, (CheckMazeCollision_one_iff ball maze).2 h⟩
  · exact ⟨0, (CheckMazeCollision_zero_iff ball maze hcap).2 h⟩

theorem tick_unchanged (p : PlayParams) (maze : Maze) (s : PlayState) (x y z : Int)
    (h : DetectTilt x y z = s.currentTilt) :
    tick p maze s x y z =
      some ({ ball := s.ball, currentTilt := DetectTilt x y z }, TickOutcome.Running) := by
  unfold tick
  simp only
  rw [if_neg (by simp [h])]

/-- A pass in which the direction changed: the new state holds the moved and
clamped ball, and the pass ends in "Game Over" exactly when `IsWallBelow` or
`CheckMazeCollision` returns 1 for that ball. -/
theorem tick_changed (p : PlayParams) (maze : Maze) (s s1 : PlayState) (x y z : Int)
    (o : TickOutcome) (h : DetectTilt x y z ≠ s.currentTilt)
    (ht : tick p maze s x y z = some (s1, o)) :
    s1 = { ball := moveAndClamp p maze s.ball (DetectTilt x y z),
           currentTilt := DetectTilt x y z } ∧
    (o = TickOutcome.GameOver ↔
      (IsWallBelow (moveAndClamp p maze s.ball (DetectTilt x y z)) maze = some 1 ∨
        CheckMazeCollision (moveAndClamp p maze s.ball (DetectTilt x y z)) maze = some 1)) := by
  unfold tick at ht
  simp only at ht
  rw [if_pos h] at ht
  cases hb : IsWallBelow (moveAndClamp p maze s.ball (DetectTilt x y z)) maze with
  | none =>
    rw [hb] at ht
    cases ht
  | some below =>
    rw [hb] at ht
    simp only at ht
    have hbv := IsWallBelow_loop_value _ maze _ 0 below hb
    by_cases hne : below ≠ 0
    · rw [if_pos hne] at ht
      cases ht
      have h1 : below = 1 := by omega
      subst h1
      exact ⟨rfl, by simp⟩
    · rw [if_neg hne] at ht
      have h0 : below = 0 := by omega
      subst h0
      cases hc : CheckMazeCollision (moveAndClamp p maze s.ball (DetectTilt x y z)) maze with
      | none =>
        rw [hc] at ht
        cases ht
      | some hit =>
        rw [hc] at ht
        simp only at ht
        have hcv := CheckMazeCollision_loop_value _ maze _ 0 hit hc
        by_cases hne2 : hit ≠ 0
        · rw [if_pos hne2] at ht
          cases ht
          have h1 : hit = 1 := by omega
          subst h1
          exact ⟨rfl, by simp⟩
        · rw [if_neg hne2] at ht
          cases ht
          have h0 : hit = 0 := by omega
          subst h0
          exact ⟨rfl, by simp⟩

theorem tick_some (p : PlayParams) (maze : Maze) (s : PlayState) (x y z : Int)
    (hcap : maze.num_walls ≤ 40) : ∃ r, tick p maze s x y z = some r := by
  by_cases h : DetectTilt x y z = s.currentTilt
  · exact ⟨_, tick_unchanged p maze s x y z h⟩
  · unfold tick
    simp only
    rw [if_pos h]
    obtain ⟨b, hb⟩ := IsWallBelow_some (moveAndClamp p maze s.ball (DetectTilt x y z)) maze hcap
    obtain ⟨c, hc⟩ :=
      CheckMazeCollision_some (moveAndClamp p maze s.ball (DetectTilt x y z)) maze hcap
    rw [hb]
    simp only
    split_ifs
    · exact ⟨_, rfl⟩
    · rw [hc]
      simp only
      split_ifs
      · exact ⟨_, rfl⟩
      · exact ⟨_, rfl⟩

theorem moveAndClamp_radius (p : PlayParams) (maze : Maze) (ball : Ball) (t : TiltDirection) :
    (moveAndClamp p maze ball t).radius = ball.radius := by
  unfold moveAndClamp
  rw [clampBall_radius]

theorem tick_radius (p : PlayParams) (maze : Maze) (s s1 : PlayState) (x y z : Int)
    (o : TickOutcome) (ht : tick p maze s x y z = some (s1, o)) :
    s1.ball.radius = s.ball.radius := by
  by_cases h : DetectTilt x y z = s.currentTilt
  · rw [tick_unchanged p maze s x y z h] at ht
    cases ht
    rfl
  · rw [(tick_changed p maze s s1 x y z o h ht).1]
    exact moveAndClamp_radius p maze s.ball _

theorem playLoop_radius (p : PlayParams) (maze : Maze) (samples : List (Int × Int × Int))
    (s s1 : PlayState) (o : TickOutcome) (h : playLoop p maze s samples = some (s1, o)) :
    s1.ball.radius = s.ball.radius := by
  induction samples generalizing s with
  | nil =>
    unfold playLoop at h
    cases h
    rfl
  | cons sample rest ih =>
    obtain ⟨x, y, z⟩ := sample
    unfold playLoop at h
    cases ht : tick p maze s x y z with
    | none =>
      rw [ht] at h
      cases h
    | some r =>
      obtain ⟨s2, o2⟩ := r
      rw [ht] at h
      have hr := tick_radius p maze s s2 x y z o2 ht
      cases o2 with
      | GameOver =>
        simp only at h
        cases h
        exact hr
      | Running =>
        simp only at h
        rw [ih s2 h, hr]

/-! ## C14 -/

/-- C14: in one pass of the play loop, if the direction classified from the new
sample equals the previous one, the ball's `x`, `y` and `radius` are unchanged
and the pass does not end the session; so a pass that changes the position is
one in which the direction differs; and the radius is the same after any
number of passes. -/
theorem C14_same_direction_leaves_ball_and_session (p : PlayParams) (maze : Maze)
    (s : PlayState) (x y z : Int) :
    (DetectTilt x y z = s.currentTilt →
      ∃ s1, tick p maze s x y z = some (s1, TickOutcome.Running) ∧
        s1.ball.x = s.ball.x ∧ s1.ball.y = s.ball.y ∧ s1.ball.radius = s.ball.radius) ∧
    (∀ s1 o, tick p maze s x y z = some (s1, o) →
      (s1.ball.x ≠ s.ball.x ∨ s1.ball.y ≠ s.ball.y) → DetectTilt x y z ≠ s.currentTilt) ∧
    (∀ samples s1 o, playLoop p maze s samples = some (s1, o) →
      s1.ball.radius = s.ball.radius) := by
  refine ⟨?_, ?_, ?_⟩
  · intro h
    exact ⟨_, tick_unchanged p maze s x y z h, rfl, rfl, rfl⟩
  · intro s1 o ht hmoved hsame
    rw [tick_unchanged p maze s x y z hsame] at ht
    cases ht
    rcases hmoved with h | h
    · exact h rfl
    · exact h rfl
  · intro samples s1 o h
    exact playLoop_radius p maze samples s s1 o h

theorem C14_witness :
    ∃ s1, tick sampleParams mazeWallUnderGoal stateTiltedRight 5 0 0 =
        some (s1, TickOutcome.Running) ∧
      s1.ball.x = stateTiltedRight.ball.x ∧ s1.ball.y = stateTiltedRight.ball.y ∧
      s1.ball.radius = stateTiltedRight.ball.radius :=
  (C14_same_direction_leaves_ball_and_session sampleParams mazeWallUnderGoal stateTiltedRight
    5 0 0).1 (by decide)

/-! ## C15 -/

/-- C15: for `MAZE_WIDTH ≥ 0` and `MAZE_HEIGHT ≥ 0`, whatever the ball and the
displacement, after the move and the clamp the centre satisfies
`maze.x ≤ ball.x ≤ maze.x + MAZE_WIDTH` and
`maze.y ≤ ball.y ≤ maze.y + MAZE_HEIGHT`; in a pass in which the direction
changed (and `num_walls` fits the array) the pass always completes, the new
state holds this clamped ball, and the session ends exactly when `IsWallBelow`
or `CheckMazeCollision` returns 1 for this clamped ball. -/
theorem C15_move_and_clamp_stays_in_rectangle (p : PlayParams) (maze : Maze) (ball : Ball)
    (t : TiltDirection) (hwidth : 0 ≤ p.MAZE_WIDTH) (hheight : 0 ≤ p.MAZE_HEIGHT) :
    (maze.x ≤ (moveAndClamp p maze ball t).x ∧
      (moveAndClamp p maze ball t).x ≤ maze.x + p.MAZE_WIDTH ∧
      maze.y ≤ (moveAndClamp p maze ball t).y ∧
      (moveAndClamp p maze ball t).y ≤ maze.y + p.MAZE_HEIGHT) ∧
    (∀ (currentTilt : TiltDirection) (x y z : Int),
      DetectTilt x y z = t → t ≠ currentTilt → maze.num_walls ≤ 40 →
      ∃ o, tick p maze { ball := ball, currentTilt := currentTilt } x y z =
          some ({ ball := moveAndClamp p maze ball t, currentTilt := t }, o) ∧
        (o = TickOutcome.GameOver ↔
          (IsWallBelow (moveAndClamp p maze ball t) maze = some 1 ∨
            CheckMazeCollision (moveAndClamp p maze ball t) maze = some 1))) := by
  constructor
  · unfold moveAndClamp
    rw [clampBall_x, clampBall_y]
    simp only
    refine ⟨?_, ?_, ?_, ?_⟩ <;> split_ifs <;> omega
  · intro currentTilt x y z ht hne hcap
    subst ht
    obtain ⟨r, hr⟩ := tick_some p maze { ball := ball, currentTilt := currentTilt } x y z hcap
    obtain ⟨s1, o⟩ := r
    obtain ⟨hs, ho⟩ :=
      tick_changed p maze { ball := ball, currentTilt := currentTilt } s1 x y z o hne hr
    subst hs
    exact ⟨o, hr, ho⟩

theorem C15_witness :
    0 ≤ sampleParams.MAZE_WIDTH ∧ 0 ≤ sampleParams.MAZE_HEIGHT ∧
    moveAndClamp sampleParams mazeWallUnderGoal ballOutsideRectangle TILT_RIGHT =
      { x := 96, y := 0, radius := 3 } ∧
    mazeWallUnderGoal.x ≤
      (moveAndClamp sampleParams mazeWallUnderGoal ballOutsideRectangle TILT_RIGHT).x ∧
    (moveAndClamp sampleParams mazeWallUnderGoal ballOutsideRectangle TILT_RIGHT).x ≤
      mazeWallUnderGoal.x + sampleParams.MAZE_WIDTH ∧
    mazeWallUnderGoal.y ≤
      (moveAndClamp sampleParams mazeWallUnderGoal ballOutsideRectangle TILT_RIGHT).y ∧
    (moveAndClamp sampleParams mazeWallUnderGoal ballOutsideRectangle TILT_RIGHT).y ≤
      mazeWallUnderGoal.y + sampleParams.MAZE_HEIGHT :=
  ⟨by decide, by decide, by decide,
    (C15_move_and_clamp_stays_in_rectangle sampleParams mazeWallUnderGoal ballOutsideRectangle
      TILT_RIGHT (by decide) (by decide)).1⟩

/-! ## C16 -/

theorem hy_of_direction_ne_one (wall : Wall) (h : wall.direction ≠ 1) :
    CheckWallCollision.hy wall = 0 := by
  simp [CheckWallCollision.hy, CheckWallCollision.height, h, one_tdiv_two]

/-- A wall of length `≥ 0` that the collision test reports also passes the test
in the body of `IsWallBelow`, for any radius `≥ 0`. -/
theorem collision_passes_below_test (ball : Ball) (wall : Wall) (hradius : 0 ≤ ball.radius)
    (hlen : 0 ≤ wall.length) (hit : CheckWallCollision ball wall ≠ TILT_NONE) :
    ball.y + ball.radius ≥ wall.y ∧ ball.y ≤ wall.y + wall.length := by
  rw [CheckWallCollision_ne_none_iff] at hit
  obtain ⟨_, hdy⟩ := hit
  by_cases hd : wall.direction = 0
  · rw [hy_horizontal wall hd, dy_horizontal ball wall hd, c_abs_le_zero_iff] at hdy
    constructor <;> omega
  · rw [dy_vertical ball wall hd, c_abs_le_iff] at hdy
    have hhy : CheckWallCollision.hy wall ≤ wall.length / 2 := by
      by_cases h1 : wall.direction = 1
      · rw [hy_vertical wall h1, tdiv_two_of_nonneg _ hlen]
      · rw [hy_of_direction_ne_one wall h1]
        omega
    rcases Int.lt_or_le (wall.y + (wall.y + wall.length)) 0 with h | h
    · rw [tdiv_two_of_neg _ h] at hdy
      constructor <;> omega
    · rw [tdiv_two_of_nonneg _ h] at hdy
      constructor <;> omega

/-- C16: in a maze whose walls in use all have `length ≥ 0`, for every ball with
`radius ≥ 0`, `CheckMazeCollision = 1` implies `IsWallBelow = 1`; hence the
loss test `IsWallBelow || CheckMazeCollision` holds exactly when `IsWallBelow`
does, and a pass of the play loop ends the session exactly when the direction
changed and `IsWallBelow` returns 1 for the new ball. -/
theorem C16_collision_implies_wall_below (maze : Maze)
    (hlen : ∀ i : Fin 40, (i.val : Int) < maze.num_walls → 0 ≤ (maze.walls i).length) :
    (∀ ball : Ball, 0 ≤ ball.radius →
      CheckMazeCollision ball maze = some 1 → IsWallBelow ball maze = some 1) ∧
    (∀ ball : Ball, 0 ≤ ball.radius →
      ((IsWallBelow ball maze = some 1 ∨ CheckMazeCollision ball maze = some 1) ↔
        IsWallBelow ball maze = some 1)) ∧
    (∀ (p : PlayParams) (s s1 : PlayState) (x y z : Int) (o : TickOutcome),
      0 ≤ s.ball.radius → tick p maze s x y z = some (s1, o) →
      (o = TickOutcome.GameOver ↔
        (DetectTilt x y z ≠ s.currentTilt ∧ IsWallBelow s1.ball maze = some 1))) := by
  have key : ∀ ball : Ball, 0 ≤ ball.radius →
      CheckMazeCollision ball maze = some 1 → IsWallBelow ball maze = some 1 := by
    intro ball hr hc
    rw [CheckMazeCollision_one_iff] at hc
    obtain ⟨i, hi, hit⟩ := hc
    rw [IsWallBelow_one_iff]
    exact ⟨i, hi, collision_passes_below_test ball (maze.walls i) hr (hlen i hi) hit⟩
  refine ⟨key, ?_, ?_⟩
  · intro ball hr
    constructor
    · rintro (h | h)
      · exact h
      · exact key ball hr h
    · exact fun h => Or.inl h
  · intro p s s1 x y z o hr ht
    by_cases hsame : DetectTilt x y z = s.currentTilt
    · rw [tick_unchanged p maze s x y z hsame] at ht
      cases ht
      constructor
      · intro h
        cases h
      · rintro ⟨h, _⟩
        exact absurd hsame h
    · obtain ⟨hs, ho⟩ := tick_changed p maze s s1 x y z o hsame ht
      subst hs
      rw [ho]
      have hr1 : 0 ≤ (moveAndClamp p maze s.ball (DetectTilt x y z)).radius := by
        rw [moveAndClamp_radius]
        exact hr
      constructor
      · rintro (h | h)
        · exact ⟨hsame, h⟩
        · exact ⟨hsame, key _ hr1 h⟩
      · rintro ⟨_, h⟩
        exact Or.inl h

theorem C16_witness :
    CheckMazeCollision ballOnWall (singleWallMaze scenarioWall) = some 1 ∧
    IsWallBelow ballOnWall (singleWallMaze scenarioWall) = some 1 :=
  ⟨by decide,
    (C16_collision_implies_wall_below (singleWallMaze scenarioWall)
      (fun _ _ => (by decide : 0 ≤ scenarioWall.length))).1 ballOnWall (by decide) (by decide)⟩

/-! ## C18 -/

/-- C18: walls have zero thickness and the radius is ignored.  For a
horizontal wall (direction 0), `CheckWallCollision ≠ TILT_NONE` if and only if
`ball.y = wall.y` and `|ball.x - (2*wall.x + length)/2| ≤ length/2`; for a
vertical wall (direction 1), if and only if `ball.x = wall.x` and
`|ball.y - (2*wall.y + length)/2| ≤ length/2` (division truncating toward
zero).  A centre off the wall's line never collides, and two balls with the
same centre get the same result whatever their radii. -/
theorem C18_zero_thickness_and_radius_ignored (ball : Ball) (wall : Wall) :
    (wall.direction = 0 →
      (CheckWallCollision ball wall ≠ TILT_NONE ↔
        ball.y = wall.y ∧
        c_abs (ball.x - (2 * wall.x + wall.length).tdiv 2) ≤ wall.length.tdiv 2)) ∧
    (wall.direction = 1 →
      (CheckWallCollision ball wall ≠ TILT_NONE ↔
        ball.x = wall.x ∧
        c_abs (ball.y - (2 * wall.y + wall.length).tdiv 2) ≤ wall.length.tdiv 2)) ∧
    (wall.direction = 0 → ball.y ≠ wall.y → CheckWallCollision ball wall = TILT_NONE) ∧
    (wall.direction = 1 → ball.x ≠ wall.x → CheckWallCollision ball wall = TILT_NONE) ∧
    (∀ other : Ball, other.x = ball.x → other.y = ball.y →
      CheckWallCollision other wall = CheckWallCollision ball wall) := by
  have hsumx : wall.x + (wall.x + wall.length) = 2 * wall.x + wall.length := by omega
  have hsumy : wall.y + (wall.y + wall.length) = 2 * wall.y + wall.length := by omega
  have hh : wall.direction = 0 →
      (CheckWallCollision ball wall ≠ TILT_NONE ↔
        ball.y = wall.y ∧
        c_abs (ball.x - (2 * wall.x + wall.length).tdiv 2) ≤ wall.length.tdiv 2) := by
    intro hd
    rw [CheckWallCollision_ne_none_iff, hx_horizontal wall hd, hy_horizontal wall hd,
      dx_horizontal ball wall hd, dy_horizontal ball wall hd, c_abs_le_zero_iff, hsumx]
    constructor
    · rintro ⟨h1, h2⟩
      exact ⟨by omega, h1⟩
    · rintro ⟨h1, h2⟩
      exact ⟨h2, by omega⟩
  have hv : wall.direction = 1 →
      (CheckWallCollision ball wall ≠ TILT_NONE ↔
        ball.x = wall.x ∧
        c_abs (ball.y - (2 * wall.y + wall.length).tdiv 2) ≤ wall.length.tdiv 2) := by
    intro hd
    have hd0 : wall.direction ≠ 0 := by omega
    rw [CheckWallCollision_ne_none_iff, hx_vertical wall hd, hy_vertical wall hd,
      dx_vertical ball wall hd0, dy_vertical ball wall hd0, c_abs_le_zero_iff, hsumy]
    constructor
    · rintro ⟨h1, h2⟩
      exact ⟨by omega, h2⟩
    · rintro ⟨h1, h2⟩
      exact ⟨by omega, h2⟩
  refine ⟨hh, hv, ?_, ?_, ?_⟩
  · intro hd hne
    by_contra hcol
    exact hne ((hh hd).1 hcol).1
  · intro hd hne
    by_contra hcol
    exact hne ((hv hd).1 hcol).1
  · intro other hx hy
    unfold CheckWallCollision CheckWallCollision.crossWidth CheckWallCollision.crossHeight
      CheckWallCollision.dx CheckWallCollision.dy
    rw [hx, hy]

theorem C18_witness :
    CheckWallCollision ballOneRowOff scenarioWall = TILT_NONE :=
  (C18_zero_thickness_and_radius_ignored ballOneRowOff scenarioWall).2.2.1 rfl (by decide)

/-! ## C19 -/

theorem DisplayMazePickMenu_loop_pressed (option buttonPressed : Int) (readings : List Int)
    (h : buttonPressed ≠ 0) :
    DisplayMazePickMenu.loop option buttonPressed readings = some (option, readings) := by
  cases readings with
  | nil =>
    unfold DisplayMazePickMenu.loop
    rw [if_pos h]
  | cons reading rest =>
    unfold DisplayMazePickMenu.loop
    rw [if_pos h]

theorem DisplayMazePickMenu_loop_result (readings : List Int) (option o : Int)
    (rest : List Int) (h : DisplayMazePickMenu.loop option 0 readings = some (o, rest)) :
    o = option.tmod MENU_OPTIONS + 1 := by
  induction readings with
  | nil =>
    unfold DisplayMazePickMenu.loop at h
    simp at h
  | cons reading tail ih =>
    unfold DisplayMazePickMenu.loop at h
    rw [if_neg (by simp)] at h
    by_cases hr : reading ≠ 0
    · rw [if_pos hr, DisplayMazePickMenu_loop_pressed _ _ _ hr] at h
      cases h
      rfl
    · rw [if_neg hr] at h
      have h0 : reading = 0 := by omega
      rw [h0] at h
      exact ih h

theorem DisplayMazePickMenu_loop_first_press (idle : List Int) (option reading : Int)
    (rest : List Int) (hidle : ∀ a ∈ idle, a = 0) (hpress : reading ≠ 0) :
    DisplayMazePickMenu.loop option 0 (idle ++ reading :: rest) =
      some (option.tmod MENU_OPTIONS + 1, rest) := by
  induction idle with
  | nil =>
    simp only [List.nil_append]
    unfold DisplayMazePickMenu.loop
    rw [if_neg (by simp), if_pos hpress, DisplayMazePickMenu_loop_pressed _ _ _ hpress]
  | cons a tail ih =>
    have ha : a = 0 := hidle a (List.mem_cons_self a tail)
    subst ha
    simp only [List.cons_append]
    unfold DisplayMazePickMenu.loop
    rw [if_neg (by simp), if_neg (by simp)]
    exact ih (fun b hb => hidle b (List.mem_cons_of_mem _ hb))

theorem DisplayLevelPickMenu_loop_pressed (option buttonPressed : Int) (readings : List Int)
    (h : buttonPressed ≠ 0) :
    DisplayLevelPickMenu.loop option buttonPressed readings = some (option, readings) := by
  cases readings with
  | nil =>
    unfold DisplayLevelPickMenu.loop
    rw [if_pos h]
  | cons reading rest =>
    unfold DisplayLevelPickMenu.loop
    rw [if_pos h]

theorem DisplayLevelPickMenu_loop_result (readings : List Int) (option o : Int)
    (rest : List Int) (h : DisplayLevelPickMenu.loop option 0 readings = some (o, rest)) :
    o = option.tmod MENU_OPTIONS + 1 := by
  induction readings with
  | nil =>
    unfold DisplayLevelPickMenu.loop at h
    simp at h
  | cons reading tail ih =>
    unfold DisplayLevelPickMenu.loop at h
    rw [if_neg (by simp)] at h
    by_cases hr : reading ≠ 0
    · rw [if_pos hr, DisplayLevelPickMenu_loop_pressed _ _ _ hr] at h
      cases h
      rfl
    · rw [if_neg hr] at h
      have h0 : reading = 0 := by omega
      rw [h0] at h
      exact ih h

theorem DisplayLevelPickMenu_loop_first_press (idle : List Int) (option reading : Int)
    (rest : List Int) (hidle : ∀ a ∈ idle, a = 0) (hpress : reading ≠ 0) :
    DisplayLevelPickMenu.loop option 0 (idle ++ reading :: rest) =
      some (option.tmod MENU_OPTIONS + 1, rest) := by
  induction idle with
  | nil =>
    simp only [List.nil_append]
    unfold DisplayLevelPickMenu.loop
    rw [if_neg (by simp), if_pos hpress, DisplayLevelPickMenu_loop_pressed _ _ _ hpress]
  | cons a tail ih =>
    have ha : a = 0 := hidle a (List.mem_cons_self a tail)
    subst ha
    simp only [List.cons_append]
    unfold DisplayLevelPickMenu.loop
    rw [if_neg (by simp), if_neg (by simp)]
    exact ih (fun b hb => hidle b (List.mem_cons_of_mem _ hb))

theorem first_option : (0 : Int).tmod MENU_OPTIONS + 1 = 1 := by decide

/-- C19: for every sequence of button readings, whenever `DisplayMazePickMenu`
(and likewise `DisplayLevelPickMenu`) returns, it returns 1; it returns at the
first reading that reports a press, with `option = (0 % 4) + 1`.  So the
session loop, whenever it reaches `InitializeMaze`, calls it with
`maze_number = 1`, and that call returns instead of stopping with an error. -/
theorem C19_menus_always_return_one (readings : List Int) :
    (∀ option rest, DisplayMazePickMenu readings = some (option, rest) → option = 1) ∧
    (∀ option rest, DisplayLevelPickMenu readings = some (option, rest) → option = 1) ∧
    (∀ idle reading rest, readings = idle ++ reading :: rest → (∀ a ∈ idle, a = 0) →
      reading ≠ 0 →
      DisplayMazePickMenu readings = some (1, rest) ∧
      DisplayLevelPickMenu readings = some (1, rest)) ∧
    (∀ catalog maze result, sessionStart catalog maze readings = some result →
      result = InitializeMaze catalog maze 1 ∧ ∃ m, result = InitResult.returned m) := by
  have hmaze : ∀ option rest, DisplayMazePickMenu readings = some (option, rest) →
      option = 1 := by
    intro option rest h
    rw [DisplayMazePickMenu_loop_result readings 0 option rest h, first_option]
  refine ⟨hmaze, ?_, ?_, ?_⟩
  · intro option rest h
    rw [DisplayLevelPickMenu_loop_result readings 0 option rest h, first_option]
  · intro idle reading rest hsplit hidle hpress
    subst hsplit
    unfold DisplayMazePickMenu DisplayLevelPickMenu
    rw [DisplayMazePickMenu_loop_first_press idle 0 reading rest hidle hpress,
      DisplayLevelPickMenu_loop_first_press idle 0 reading rest hidle hpress, first_option]
    exact ⟨rfl, rfl⟩
  · intro catalog maze result h
    unfold sessionStart at h
    cases hm : DisplayMazePickMenu readings with
    | none =>
      rw [hm] at h
      cases h
    | some r =>
      obtain ⟨selectedMaze, rest⟩ := r
      rw [hm] at h
      simp only at h
      have h1 : selectedMaze = 1 := hmaze selectedMaze rest hm
      subst h1
      cases hl : DisplayLevelPickMenu rest with
      | none =>
        rw [hl] at h
        cases h
      | some r2 =>
        rw [hl] at h
        simp only at h
        cases h
        refine ⟨rfl, ?_⟩
        unfold InitializeMaze
        simp only
        rw [if_pos (by decide)]
        exact ⟨_, rfl⟩

theorem C19_witness :
    DisplayMazePickMenu buttonReadings = some (1, [0, 1, 0]) ∧
    DisplayLevelPickMenu buttonReadings = some (1, [0, 1, 0]) :=
  (C19_menus_always_return_one buttonReadings).2.2.1 [0, 0] 1 [0, 1, 0] rfl
    (by decide) (by decide)

end MazeGame
